import Mathlib

/-!
Verification of the symmetric-array containers in `SymmetricArray.py`
(classes `SymmetricArray` and `SymmetricArray3d`).

The Python code is embedded shallowly: each method becomes a Lean function
on an explicit state record.  Python lists become `List`, Python (2) integer
division becomes `Nat` division, and Python's exception-raising indexing
(including the wrap-around behaviour of negative indices) is modelled by
`pyIdx`/`pyGet`/`pySet` below.  Methods that can raise return `Except PyErr`.
-/

namespace SymSpec

/-- The exceptions the embedded code can raise.
`wrongArity` and `outOfRange` are the two `IndexError` kinds raised explicitly
by `__getitem__`/`__setitem__`/`getitem`/`setitem`; `listIndex` is the
`IndexError` Python itself raises on an out-of-range list subscript; and
`nameError` models a `NameError` from an unbound identifier. -/
inductive PyErr where
  | wrongArity (keys : List Int)
  | outOfRange (key : Int)
  | listIndex
  | nameError (ident : String)
deriving Repr, DecidableEq

/-- Resolution of a Python list index: an index `i` with `-len ≤ i < len` is
valid, and a negative index wraps to `i + len`; anything else raises. -/
def pyIdx (len : Nat) (i : Int) : Option Nat :=
  if 0 ≤ i then
    if i < (len : Int) then some i.toNat else none
  else
    if 0 ≤ i + (len : Int) then some (i + (len : Int)).toNat else none

/-- Python list read `xs[i]` (with negative-index wrap-around). -/
def pyGet {α : Type} (xs : List α) (i : Int) : Option α :=
  (pyIdx xs.length i).bind (fun n => xs.get? n)

/-- Python list element assignment `xs[i] = v` (with negative-index
wrap-around); `none` models the raised `IndexError`. -/
def pySet {α : Type} (xs : List α) (i : Int) (v : α) : Option (List α) :=
  (pyIdx xs.length i).map (fun n => xs.set n v)

/-- A Python subscript expression: either the resolved value, or the
`IndexError` Python raises when the index did not resolve. -/
def subscript {β : Type} (o : Option β) : Except PyErr β :=
  match o with
  | some x => .ok x
  | none => .error .listIndex

@[simp] lemma subscript_some {β : Type} (x : β) : subscript (some x) = .ok x := rfl

@[simp] lemma subscript_none {β : Type} :
    subscript (none : Option β) = .error .listIndex := rfl

/-- The `for key in keys: if key > self.sm1: raise IndexError(...)` scan of
`__getitem__`/`__setitem__`: raise on the first offending key (`o` is the
result of `find?`), otherwise continue with `next`. -/
def raiseFound {β : Type} (o : Option Int) (next : Except PyErr β) : Except PyErr β :=
  match o with
  | some k => .error (.outOfRange k)
  | none => next

@[simp] lemma raiseFound_some {β : Type} (k : Int) (next : Except PyErr β) :
    raiseFound (some k) next = .error (.outOfRange k) := rfl

@[simp] lemma raiseFound_none {β : Type} (next : Except PyErr β) :
    raiseFound none next = next := rfl

@[simp] lemma ok_bind {β γ : Type} (x : β) (f : β → Except PyErr γ) :
    (Except.ok x : Except PyErr β) >>= f = f x := rfl

@[simp] lemma error_bind {β γ : Type} (e : PyErr) (f : β → Except PyErr γ) :
    (Except.error e : Except PyErr β) >>= f = Except.error e := rfl

/-- State of a `SymmetricArray` object: the fields assigned by `__init__`
(src lines 70-79).  `unique = (N**2 + N)/2`, `shape = N`, `values` is the
list of row segments, `sm1 = N - 1`.  Element values are modelled as `Int`;
the `dtype` field plays no role in any claim and is omitted. -/
structure SymmetricArray where
  unique : Nat
  shape : Nat
  values : List (List Int)
  sm1 : Int
deriving Repr, DecidableEq

/-- The default fill function `numpy.zeros`: a length-`n` block of zeros. -/
def zeros (n : Nat) : List Int := List.replicate n 0

/-- `SymmetricArray.__init__(N, fill_function, ...)` (src lines 51-81):
`unique = (N**2+N)/2` (Python 2 integer division), `shape = N`, `sm1 = N-1`,
and `values` gets `N` segments, segment `i` produced by the fill function on
length `N - i`.  The fill function is taken with its extra configuration
already applied, as a map from the requested length to a block. -/
def init2d (N : Nat) (fill_function : Nat → List Int) : SymmetricArray :=
  { unique := (N ^ 2 + N) / 2
    shape := N
    values := (List.range N).map (fun i => fill_function (N - i))
    sm1 := (N : Int) - 1 }

/-- `SymmetricArray.getitem(keya, keyb)` (src lines 112-122): bounds check
`key > self.sm1`, then read `self.values[mink][maxk - mink]`. -/
def getitem (a : SymmetricArray) (keya keyb : Int) : Except PyErr Int :=
  if keya > a.sm1 then .error (.outOfRange keya)
  else if keyb > a.sm1 then .error (.outOfRange keyb)
  else
    let mink := min keya keyb
    let maxk := max keya keyb
    subscript (pyGet a.values mink) >>= fun seg =>
      subscript (pyGet seg (maxk - mink))

/-- `SymmetricArray.setitem(keya, keyb, value)` (src lines 124-135): bounds
check, then write `self.values[mink][maxk - mink] = value`.  The in-place
mutation of segment `mink` is modelled by rebuilding `values` with that
segment replaced. -/
def setitem (a : SymmetricArray) (keya keyb v : Int) : Except PyErr SymmetricArray :=
  if keya > a.sm1 then .error (.outOfRange keya)
  else if keyb > a.sm1 then .error (.outOfRange keyb)
  else
    let mink := min keya keyb
    let maxk := max keya keyb
    subscript (pyIdx a.values.length mink) >>= fun n =>
      subscript (pySet (a.values.getD n []) (maxk - mink) v) >>= fun seg2 =>
        .ok { a with values := a.values.set n seg2 }

/-- `SymmetricArray.__getitem__(keys)` (src lines 83-95): wrong-arity check
(a bare int, or a tuple whose length is not 2), then the out-of-range scan
`key > self.sm1` over the keys in order, then `self.getitem`.  A key tuple is
modelled as a `List Int` (a bare int key is a singleton list, caught by the
same arity branch). -/
def dunder_getitem (a : SymmetricArray) (keys : List Int) : Except PyErr Int :=
  if h : keys.length = 2 then
    raiseFound (keys.find? (fun k => a.sm1 < k))
      (getitem a (keys.get ⟨0, by omega⟩) (keys.get ⟨1, by omega⟩))
  else .error (.wrongArity keys)

/-- `SymmetricArray.__setitem__(keys, value)` (src lines 97-110): same
validation as `__getitem__`, then `self.setitem`. -/
def dunder_setitem (a : SymmetricArray) (keys : List Int) (v : Int) :
    Except PyErr SymmetricArray :=
  if h : keys.length = 2 then
    raiseFound (keys.find? (fun k => a.sm1 < k))
      (setitem a (keys.get ⟨0, by omega⟩) (keys.get ⟨1, by omega⟩) v)
  else .error (.wrongArity keys)

/-- The index pairs visited by the loops
`for i in xrange(self.shape-1): for j in xrange(i+1, self.shape)`
used by `__iadd__` (src lines 139-140) and `full` (src lines 148-149). -/
def offDiagPairs (N : Nat) : List (Nat × Nat) :=
  (List.range (N - 1)).flatMap
    (fun i => (List.range' (i + 1) (N - (i + 1))).map (fun j => (i, j)))

/-- `SymmetricArray.__iadd__(value)` (src lines 138-143): for each pair
`(i, j)` with `i < j < shape`, executes `self[i, j] = value`, then a bare
`return`.  The result pairs the mutated object with the method's return
value, which is Python `None` (modelled as `none`), not the object. -/
def dunder_iadd (a : SymmetricArray) (v : Int) :
    Except PyErr (SymmetricArray × Option SymmetricArray) :=
  ((offDiagPairs a.shape).foldlM
      (fun s p => dunder_setitem s [(p.1 : Int), (p.2 : Int)] v) a) >>= fun s =>
    Except.ok (s, none)

/-- Python's augmented assignment `a += v` on an object with `__iadd__`:
the name `a` is rebound to whatever `a.__iadd__(v)` returns. -/
def pyAugAdd (a : SymmetricArray) (v : Int) : Except PyErr (Option SymmetricArray) :=
  dunder_iadd a v >>= fun r => Except.ok r.2

/-- The dense array `np.zeros((N, N))` allocated by `full` (src line 147). -/
def denseZeros (N : Nat) : List (List Int) :=
  List.replicate N (List.replicate N 0)

/-- The numpy element assignment `outarr[i][j] = value` performed by `full`
(src lines 151-152), on in-range nonnegative loop indices. -/
def denseSet (d : List (List Int)) (i j : Nat) (v : Int) : Option (List (List Int)) :=
  (d.get? i).bind (fun row =>
    if j < row.length then some (d.set i (row.set j v)) else none)

/-- One iteration of the `full` loop body (src lines 150-152):
`value = self[i, j]; outarr[i][j] = value; outarr[j][i] = value`. -/
def fullStep (a : SymmetricArray) (d : List (List Int)) (p : Nat × Nat) :
    Except PyErr (List (List Int)) :=
  dunder_getitem a [(p.1 : Int), (p.2 : Int)] >>= fun v =>
    subscript (denseSet d p.1 p.2 v) >>= fun d1 =>
      subscript (denseSet d1 p.2 p.1 v)

/-- `SymmetricArray.full()` (src lines 146-153): allocate an `N × N` zero
array and copy every off-diagonal unique value to both mirrored cells. -/
def full (a : SymmetricArray) : Except PyErr (List (List Int)) :=
  (offDiagPairs a.shape).foldlM (fullStep a) (denseZeros a.shape)

/-- Dense-array cell read `d[a][b]`, used to state what `full` returns. -/
def getD2 (d : List (List Int)) (a b : Nat) : Option Int :=
  (d.get? a).bind (fun r => r.get? b)

/-- `SymmetricArray.__len__` (src lines 155-156): returns `self.unique`. -/
def pyLen (a : SymmetricArray) : Nat := a.unique

/-- State of a `SymmetricArray3d` object: the fields its `__init__`
(src lines 171-180) assigns.  Segment `i` is intended to be a 2-D block of
shape `(N - i, N)`. -/
structure SymmetricArray3d where
  unique : Nat
  shape : Nat
  values : List (List (List Int))
  sm1 : Int
deriving Repr, DecidableEq

/-- A `SymmetricArray3d` state with the scalar fields as `__init__`
(src lines 171-175) computes them — `unique = ((N**2+N)/2)*N`, `shape = N`,
`sm1 = N-1` — and the segment list given abstractly.  (The fill loop of
`__init__` as written never produces segments: see `init3d`.) -/
def mk3d (N : Nat) (segs : List (List (List Int))) : SymmetricArray3d :=
  { unique := ((N ^ 2 + N) / 2) * N
    shape := N
    values := segs
    sm1 := (N : Int) - 1 }

/-- Embedding of `SymmetricArray3d.__init__(N, fill_function, *args, **kwarg)`
(src lines 171-180).  The fill loop body is
`self.values.append(fill_func((N-i, N), *args, **kwargs))`, but no name
`fill_func` is bound (the parameter is `fill_function`) and no `kwargs`
(the parameter is `kwarg`), so for `N ≥ 1` the first iteration raises
`NameError`; for `N = 0` the loop is skipped and `self.values[0].dtype`
raises an `IndexError`.  Construction never returns an object. -/
def init3d (N : Nat) : Except PyErr SymmetricArray3d :=
  if 1 ≤ N then .error (.nameError "fill_func")
  else .error .listIndex

/-- `SymmetricArray3d.getitem(keya, keyb, keyc)` (src lines 182-195):
bounds checks on all three keys, then read
`self.values[mink][maxk - mink][keyc]`. -/
def getitem3 (a : SymmetricArray3d) (keya keyb keyc : Int) : Except PyErr Int :=
  if keya > a.sm1 then .error (.outOfRange keya)
  else if keyb > a.sm1 then .error (.outOfRange keyb)
  else if keyc > a.sm1 then .error (.outOfRange keyc)
  else
    let mink := min keya keyb
    let maxk := max keya keyb
    subscript (pyGet a.values mink) >>= fun seg =>
      subscript (pyGet seg (maxk - mink)) >>= fun row =>
        subscript (pyGet row keyc)

/-- `SymmetricArray3d.setitem(keya, keyb, keyc, value)` (src lines 197-211):
bounds checks, then write `self.values[mink][maxk - mink][keyc] = value`. -/
def setitem3 (a : SymmetricArray3d) (keya keyb keyc v : Int) :
    Except PyErr SymmetricArray3d :=
  if keya > a.sm1 then .error (.outOfRange keya)
  else if keyb > a.sm1 then .error (.outOfRange keyb)
  else if keyc > a.sm1 then .error (.outOfRange keyc)
  else
    let mink := min keya keyb
    let maxk := max keya keyb
    subscript (pyIdx a.values.length mink) >>= fun n =>
      subscript (pyIdx (a.values.getD n []).length (maxk - mink)) >>= fun m =>
        subscript (pySet ((a.values.getD n []).getD m []) keyc v) >>= fun row2 =>
          .ok { a with values :=
            a.values.set n ((a.values.getD n []).set m row2) }

/-- `SymmetricArray3d.__getitem__(keys)` (src lines 220-233): wrong-arity
check (bare int or length ≠ 3), out-of-range scan, then `self.getitem`. -/
def dunder_getitem3 (a : SymmetricArray3d) (keys : List Int) : Except PyErr Int :=
  if h : keys.length = 3 then
    raiseFound (keys.find? (fun k => a.sm1 < k))
      (getitem3 a (keys.get ⟨0, by omega⟩) (keys.get ⟨1, by omega⟩)
        (keys.get ⟨2, by omega⟩))
  else .error (.wrongArity keys)

/-- `SymmetricArray3d.__setitem__(keys, value)` (src lines 235-247): same
validation, then `self.setitem`. -/
def dunder_setitem3 (a : SymmetricArray3d) (keys : List Int) (v : Int) :
    Except PyErr SymmetricArray3d :=
  if h : keys.length = 3 then
    raiseFound (keys.find? (fun k => a.sm1 < k))
      (setitem3 a (keys.get ⟨0, by omega⟩) (keys.get ⟨1, by omega⟩)
        (keys.get ⟨2, by omega⟩) v)
  else .error (.wrongArity keys)

/-- `SymmetricArray3d.__len__` (src lines 249-250): returns `self.unique`. -/
def pyLen3 (a : SymmetricArray3d) : Nat := a.unique

/-- The shape invariant a `SymmetricArray(N)` state satisfies: `N` segments
and segment `i` holds `N - i` elements (spec §3). -/
def wellFormed2d (N : Nat) (s : SymmetricArray) : Prop :=
  s.shape = N ∧ s.sm1 = (N : Int) - 1 ∧ s.values.length = N ∧
    ∀ t : Fin s.values.length, (s.values.get t).length = N - (t : Nat)

/-- The shape invariant a `SymmetricArray3d(N)` state satisfies: `N`
segments, segment `i` of shape `(N - i, N)` (spec §3). -/
def wellFormed3d (N : Nat) (s : SymmetricArray3d) : Prop :=
  s.shape = N ∧ s.sm1 = (N : Int) - 1 ∧ s.values.length = N ∧
    ∀ t : Fin s.values.length,
      (s.values.get t).length = N - (t : Nat) ∧
        ∀ row ∈ s.values.get t, row.length = N

instance (N : Nat) (s : SymmetricArray) : Decidable (wellFormed2d N s) := by
  unfold wellFormed2d; infer_instance

instance (N : Nat) (s : SymmetricArray3d) : Decidable (wellFormed3d N s) := by
  unfold wellFormed3d; infer_instance

/-! ### Basic facts about the Python indexing model -/

lemma pyIdx_coe {len n : Nat} (h : n < len) : pyIdx len (n : Int) = some n := by
  unfold pyIdx
  rw [if_pos (by positivity), if_pos (by exact_mod_cast h)]
  simp

lemma pyIdx_some_lt {len : Nat} {i : Int} {n : Nat} (h : pyIdx len i = some n) :
    n < len := by
  unfold pyIdx at h
  split at h <;> split at h <;> injection h <;> omega

lemma pyIdx_neg {len : Nat} {i : Int} (h1 : -(len : Int) ≤ i) (h2 : i < 0) :
    pyIdx len i = some (i + len).toNat := by
  unfold pyIdx
  rw [if_neg (by omega), if_pos (by omega)]

lemma pyGet_coe {α : Type} (xs : List α) {n : Nat} (h : n < xs.length) :
    pyGet xs (n : Int) = xs.get? n := by
  unfold pyGet
  rw [pyIdx_coe h, Option.some_bind]

lemma pySet_coe {α : Type} (xs : List α) {n : Nat} (h : n < xs.length) (v : α) :
    pySet xs (n : Int) v = some (xs.set n v) := by
  unfold pySet
  rw [pyIdx_coe h, Option.map_some']

lemma cast_min (i j : Nat) : min (i : Int) (j : Int) = ((min i j : Nat) : Int) := by
  rw [Nat.cast_min]

lemma cast_max (i j : Nat) : max (i : Int) (j : Int) = ((max i j : Nat) : Int) := by
  rw [Nat.cast_max]

lemma cast_max_sub_min (i j : Nat) :
    max (i : Int) (j : Int) - min (i : Int) (j : Int) =
      ((max i j - min i j : Nat) : Int) := by
  rw [cast_min, cast_max]
  have : min i j ≤ max i j := le_max_of_le_left (min_le_left i j)
  omega

/-! ### Well-formedness accessors -/

lemma values_get?_of_wf {N : Nat} {s : SymmetricArray} (hw : wellFormed2d N s)
    {t : Nat} (ht : t < N) :
    ∃ seg, s.values.get? t = some seg ∧ seg.length = N - t := by
  obtain ⟨-, -, hlen, hseg⟩ := hw
  have ht' : t < s.values.length := by omega
  exact ⟨s.values.get ⟨t, ht'⟩, List.get?_eq_get ht', hseg ⟨t, ht'⟩⟩

lemma wf2_sm1 {N : Nat} {s : SymmetricArray} (hw : wellFormed2d N s) :
    s.sm1 = (N : Int) - 1 := hw.2.1

lemma wf2_vlen {N : Nat} {s : SymmetricArray} (hw : wellFormed2d N s) :
    s.values.length = N := hw.2.2.1

lemma wf2_seg_len {N : Nat} {s : SymmetricArray} (hw : wellFormed2d N s)
    {t : Nat} {seg : List Int} (h : s.values.get? t = some seg) :
    seg.length = N - t := by
  obtain ⟨hlt, hget⟩ := List.get?_eq_some.mp h
  have hfin := hw.2.2.2 ⟨t, hlt⟩
  rw [hget] at hfin
  exact hfin

lemma set_seg_len {N : Nat} {vals : List (List Int)}
    (hall : ∀ t' seg', vals.get? t' = some seg' → seg'.length = N - t')
    {t : Nat} {seg seg2 : List Int} (hseg : vals.get? t = some seg)
    (hlen : seg2.length = seg.length) :
    ∀ t' seg', (vals.set t seg2).get? t' = some seg' → seg'.length = N - t' := by
  intro t' seg' h
  rcases eq_or_ne t t' with h1 | h1
  · subst h1
    have ht : t < vals.length := (List.get?_eq_some.mp hseg).1
    rw [List.get?_set_eq_of_lt seg2 ht] at h
    injection h with h
    rw [← h, hlen]
    exact hall t seg hseg
  · rw [List.get?_set_ne seg2 _ h1] at h
    exact hall t' seg' h

lemma wf2_set {N : Nat} {s : SymmetricArray} (hw : wellFormed2d N s)
    {t : Nat} {seg seg2 : List Int} (hseg : s.values.get? t = some seg)
    (hlen : seg2.length = seg.length) :
    wellFormed2d N { s with values := s.values.set t seg2 } := by
  obtain ⟨h1, h2, h3, h4⟩ := hw
  have hall : ∀ t' seg', s.values.get? t' = some seg' → seg'.length = N - t' :=
    fun t' seg' h => wf2_seg_len ⟨h1, h2, h3, h4⟩ h
  have hall2 := set_seg_len hall hseg hlen
  refine ⟨h1, h2, by simpa using h3, ?_⟩
  intro r
  exact hall2 _ _ (List.get?_eq_get r.isLt)

/-! ### Behaviour of `getitem` / `setitem` at valid nonnegative coordinates -/

lemma getitem_ok_of_wf {N : Nat} {s : SymmetricArray} (hw : wellFormed2d N s)
    {i j : Nat} (hi : i < N) (hj : j < N) {seg : List Int}
    (hseg : s.values.get? (min i j) = some seg) :
    ∃ v, getitem s (i : Int) (j : Int) = Except.ok v ∧
      seg.get? (max i j - min i j) = some v := by
  have hsm1 := wf2_sm1 hw
  have hvlen := wf2_vlen hw
  have hslen := wf2_seg_len hw hseg
  have hmin : min i j < s.values.length := by omega
  have hoff : max i j - min i j < seg.length := by omega
  refine ⟨seg.get ⟨max i j - min i j, hoff⟩, ?_, List.get?_eq_get hoff⟩
  simp only [getitem]
  rw [hsm1, if_neg (by omega), if_neg (by omega), cast_max_sub_min, cast_min,
    pyGet_coe _ hmin, hseg]
  simp only [subscript_some, ok_bind]
  rw [pyGet_coe _ hoff, List.get?_eq_get hoff]
  rfl

lemma setitem_ok_of_wf {N : Nat} {s : SymmetricArray} (hw : wellFormed2d N s)
    {i j : Nat} (hi : i < N) (hj : j < N) {seg : List Int}
    (hseg : s.values.get? (min i j) = some seg) (v : Int) :
    setitem s (i : Int) (j : Int) v = Except.ok
      { s with values := s.values.set (min i j) (seg.set (max i j - min i j) v) } := by
  have hsm1 := wf2_sm1 hw
  have hvlen := wf2_vlen hw
  have hslen := wf2_seg_len hw hseg
  have hmin : min i j < s.values.length := by omega
  have hoff : max i j - min i j < seg.length := by omega
  have hgetD : s.values.getD (min i j) [] = seg := by
    rw [List.getD_eq_getElem?_getD, ← List.get?_eq_getElem?, hseg]
    rfl
  simp only [setitem]
  rw [hsm1, if_neg (by omega), if_neg (by omega), cast_max_sub_min, cast_min,
    pyIdx_coe (show min i j < s.values.length by omega)]
  simp only [subscript_some, ok_bind]
  rw [hgetD, pySet_coe _ hoff]
  simp only [subscript_some, ok_bind]

/-- C1 core: after a valid `setitem (i, j)`, reading either `(i, j)` or
`(j, i)` yields the written value. -/
lemma set_get_2d {N : Nat} {s : SymmetricArray} (hw : wellFormed2d N s)
    {i j : Nat} (hi : i < N) (hj : j < N) (v : Int) :
    ∃ s2, setitem s (i : Int) (j : Int) v = Except.ok s2 ∧ wellFormed2d N s2 ∧
      getitem s2 (i : Int) (j : Int) = Except.ok v ∧
      getitem s2 (j : Int) (i : Int) = Except.ok v := by
  obtain ⟨seg, hseg, hslen⟩ := values_get?_of_wf hw (show min i j < N by omega)
  have hoff : max i j - min i j < seg.length := by omega
  have hw2 : wellFormed2d N
      { s with values := s.values.set (min i j) (seg.set (max i j - min i j) v) } :=
    wf2_set hw hseg (by simp)
  have hseg2 : ({ s with values := (s.values.set (min i j)
        (seg.set (max i j - min i j) v)) } : SymmetricArray).values.get? (min i j) =
      some (seg.set (max i j - min i j) v) := by
    have hv := wf2_vlen hw
    simpa using List.get?_set_eq_of_lt _ (show min i j < s.values.length by omega)
  refine ⟨_, setitem_ok_of_wf hw hi hj hseg v, hw2, ?_, ?_⟩
  · obtain ⟨w, hget, hw_eq⟩ := getitem_ok_of_wf hw2 hi hj hseg2
    rw [List.get?_set_eq_of_lt v hoff] at hw_eq
    injection hw_eq with hw_eq
    rw [hget, hw_eq]
  · have hseg2' : ({ s with values := (s.values.set (min i j)
        (seg.set (max i j - min i j) v)) } : SymmetricArray).values.get? (min j i) =
        some (seg.set (max i j - min i j) v) := by
      rw [min_comm j i]; exact hseg2
    obtain ⟨w, hget, hw_eq⟩ := getitem_ok_of_wf hw2 hj hi hseg2'
    rw [max_comm j i, min_comm j i, List.get?_set_eq_of_lt v hoff] at hw_eq
    injection hw_eq with hw_eq
    rw [hget, hw_eq]

/-! ### The `__getitem__`/`__setitem__` wrappers on keys that pass validation -/

lemma dunder_getitem_valid {N : Nat} {s : SymmetricArray} (hsm1 : s.sm1 = (N : Int) - 1)
    {i j : Int} (hi : i ≤ (N : Int) - 1) (hj : j ≤ (N : Int) - 1) :
    dunder_getitem s [i, j] = getitem s i j := by
  have hfind : [i, j].find? (fun k => s.sm1 < k) = none := by
    rw [List.find?_eq_none]
    intro x hx
    simp only [List.mem_cons, List.mem_singleton, List.not_mem_nil, or_false] at hx
    rcases hx with h | h <;> subst h <;> simp [hsm1] <;> omega
  simp [dunder_getitem, hfind]

lemma dunder_setitem_valid {N : Nat} {s : SymmetricArray} (hsm1 : s.sm1 = (N : Int) - 1)
    {i j : Int} (hi : i ≤ (N : Int) - 1) (hj : j ≤ (N : Int) - 1) (v : Int) :
    dunder_setitem s [i, j] v = setitem s i j v := by
  have hfind : [i, j].find? (fun k => s.sm1 < k) = none := by
    rw [List.find?_eq_none]
    intro x hx
    simp only [List.mem_cons, List.mem_singleton, List.not_mem_nil, or_false] at hx
    rcases hx with h | h <;> subst h <;> simp [hsm1] <;> omega
  simp [dunder_setitem, hfind]

/-! ### Claim theorems -/

/-- C1: for every `N ≥ 1` and coordinates `i, j ∈ [0, N)`, after
`set((i, j), v)` on a well-formed Symmetric2D container both `get((i, j))`
and `get((j, i))` return `v`: the two symmetric orderings of a valid
coordinate pair read and write the same physical slot. -/
theorem C1_symmetric_set_get (N : Nat) (s : SymmetricArray) (hw : wellFormed2d N s)
    (i j : Nat) (hi : i < N) (hj : j < N) (v : Int) :
    ∃ s2, dunder_setitem s [(i : Int), (j : Int)] v = Except.ok s2 ∧
      dunder_getitem s2 [(i : Int), (j : Int)] = Except.ok v ∧
      dunder_getitem s2 [(j : Int), (i : Int)] = Except.ok v := by
  obtain ⟨s2, hset, hw2, hg1, hg2⟩ := set_get_2d hw hi hj v
  refine ⟨s2, ?_, ?_, ?_⟩
  · rw [dunder_setitem_valid (wf2_sm1 hw) (by omega) (by omega)]
    exact hset
  · rw [dunder_getitem_valid (wf2_sm1 hw2) (by omega) (by omega)]
    exact hg1
  · rw [dunder_getitem_valid (wf2_sm1 hw2) (by omega) (by omega)]
    exact hg2

/-- Witness for C1 at `N = 3`, `i = 1`, `j = 2`, `v = 7` on the
zero-initialised container. -/
theorem C1_symmetric_set_get_witness :
    ∃ s2, dunder_setitem (init2d 3 zeros) [((1 : Nat) : Int), ((2 : Nat) : Int)] 7 =
        Except.ok s2 ∧
      dunder_getitem s2 [((1 : Nat) : Int), ((2 : Nat) : Int)] = Except.ok 7 ∧
      dunder_getitem s2 [((2 : Nat) : Int), ((1 : Nat) : Int)] = Except.ok 7 :=
  C1_symmetric_set_get 3 (init2d 3 zeros) (by decide) 1 2 (by decide) (by decide) 7

/-- C6: for all `a, b ∈ [0, N)` the mapping `lo = min a b`,
`offset = max a b - lo` yields `offset < N - lo`, the length of segment
`lo`, so the physical read `values[lo][offset]` performed by `getitem` is in
bounds and its error branch is unreachable. -/
theorem C6_mapping_in_bounds (N : Nat) (s : SymmetricArray) (hw : wellFormed2d N s)
    (a b : Nat) (ha : a < N) (hb : b < N) :
    max a b - min a b < N - min a b ∧
    ∃ seg, s.values.get? (min a b) = some seg ∧ seg.length = N - min a b ∧
      ∃ v, seg.get? (max a b - min a b) = some v ∧
        getitem s (a : Int) (b : Int) = Except.ok v := by
  obtain ⟨seg, hseg, hslen⟩ := values_get?_of_wf hw (show min a b < N by omega)
  obtain ⟨v, hget, hv⟩ := getitem_ok_of_wf hw ha hb hseg
  exact ⟨by omega, seg, hseg, hslen, v, hv, hget⟩

/-- Witness for C6 at `N = 4`, `a = 3`, `b = 1`. -/
theorem C6_mapping_in_bounds_witness :
    max 3 1 - min 3 1 < 4 - min 3 1 ∧
    ∃ seg, (init2d 4 zeros).values.get? (min 3 1) = some seg ∧
      seg.length = 4 - min 3 1 ∧
      ∃ v, seg.get? (max 3 1 - min 3 1) = some v ∧
        getitem (init2d 4 zeros) ((3 : Nat) : Int) ((1 : Nat) : Int) = Except.ok v :=
  C6_mapping_in_bounds 4 (init2d 4 zeros) (by decide) 3 1 (by decide) (by decide)

/-- C9: negative coordinates in `[-N, -1]` pass the bounds validation of
`__getitem__`/`__setitem__` (which only checks `key > N - 1`), and the
negative index then wraps around in the physical access: `get((-1, -1))`
and `set((-1, -1), v)` resolve to the same slot as `get((N-1, N-1))` /
`set((N-1, N-1), v)`. -/
theorem C9_negative_wraparound (N : Nat) (s : SymmetricArray) (hw : wellFormed2d N s)
    (hN : 1 ≤ N) (a b : Int) (ha : -(N : Int) ≤ a) (ha1 : a ≤ -1)
    (hb : -(N : Int) ≤ b) (hb1 : b ≤ -1) (v : Int) :
    dunder_getitem s [a, b] = getitem s a b ∧
    dunder_setitem s [a, b] v = setitem s a b v ∧
    getitem s (-1) (-1) = getitem s ((N : Int) - 1) ((N : Int) - 1) ∧
    setitem s (-1) (-1) v = setitem s ((N : Int) - 1) ((N : Int) - 1) v := by
  have hsm1 := wf2_sm1 hw
  have hvlen := wf2_vlen hw
  have e1 : pyGet s.values (-1 : Int) = s.values.get? (N - 1) := by
    unfold pyGet
    rw [pyIdx_neg (show -((s.values.length : Int)) ≤ -1 by omega) (by omega),
      Option.some_bind]
    congr 1
    omega
  have e2 : pyGet s.values ((N : Int) - 1) = s.values.get? (N - 1) := by
    have hc : ((N : Int) - 1) = ((N - 1 : Nat) : Int) := by omega
    rw [hc, pyGet_coe _ (by omega)]
  have e1' : pyIdx s.values.length (-1 : Int) = some (N - 1) := by
    rw [pyIdx_neg (show -((s.values.length : Int)) ≤ -1 by omega) (by omega)]
    congr 1
    omega
  have e2' : pyIdx s.values.length ((N : Int) - 1) = some (N - 1) := by
    have hc : ((N : Int) - 1) = ((N - 1 : Nat) : Int) := by omega
    rw [hc, hvlen, pyIdx_coe (by omega)]
  refine ⟨dunder_getitem_valid hsm1 (by omega) (by omega),
    dunder_setitem_valid hsm1 (by omega) (by omega) v, ?_, ?_⟩
  · simp only [getitem, min_self, max_self, sub_self]
    rw [hsm1,
      if_neg (show ¬((-1 : Int) > (N : Int) - 1) by omega),
      if_neg (show ¬((-1 : Int) > (N : Int) - 1) by omega),
      if_neg (show ¬((N : Int) - 1 > (N : Int) - 1) by omega),
      if_neg (show ¬((N : Int) - 1 > (N : Int) - 1) by omega),
      e1, e2]
  · simp only [setitem, min_self, max_self, sub_self]
    rw [hsm1,
      if_neg (show ¬((-1 : Int) > (N : Int) - 1) by omega),
      if_neg (show ¬((-1 : Int) > (N : Int) - 1) by omega),
      if_neg (show ¬((N : Int) - 1 > (N : Int) - 1) by omega),
      if_neg (show ¬((N : Int) - 1 > (N : Int) - 1) by omega),
      e1', e2']

/-- C5: on both containers, `get`/`set` fail with the wrong-arity
`IndexError` whenever the key count differs from the dimensionality (2
resp. 3), and, at the right arity, fail with the out-of-range `IndexError`
naming an offending key whenever some key is `≥ N`. -/
theorem C5_validation_errors (N : Nat) (s : SymmetricArray) (s3 : SymmetricArray3d)
    (hs : s.sm1 = (N : Int) - 1) (hs3 : s3.sm1 = (N : Int) - 1)
    (keys : List Int) (v : Int) :
    (keys.length ≠ 2 →
      dunder_getitem s keys = Except.error (PyErr.wrongArity keys) ∧
      dunder_setitem s keys v = Except.error (PyErr.wrongArity keys)) ∧
    (keys.length ≠ 3 →
      dunder_getitem3 s3 keys = Except.error (PyErr.wrongArity keys) ∧
      dunder_setitem3 s3 keys v = Except.error (PyErr.wrongArity keys)) ∧
    (keys.length = 2 → (∃ k ∈ keys, (N : Int) ≤ k) →
      ∃ k, k ∈ keys ∧ (N : Int) ≤ k ∧
        dunder_getitem s keys = Except.error (PyErr.outOfRange k) ∧
        dunder_setitem s keys v = Except.error (PyErr.outOfRange k)) ∧
    (keys.length = 3 → (∃ k ∈ keys, (N : Int) ≤ k) →
      ∃ k, k ∈ keys ∧ (N : Int) ≤ k ∧
        dunder_getitem3 s3 keys = Except.error (PyErr.outOfRange k) ∧
        dunder_setitem3 s3 keys v = Except.error (PyErr.outOfRange k)) := by
  refine ⟨fun h => ⟨by simp [dunder_getitem, h], by simp [dunder_setitem, h]⟩,
    fun h => ⟨by simp [dunder_getitem3, h], by simp [dunder_setitem3, h]⟩, ?_, ?_⟩
  · intro h2 hex
    obtain ⟨k0, hk0, hk0N⟩ := hex
    rcases hfind : keys.find? (fun k => s.sm1 < k) with _ | k
    · exfalso
      have hnone := List.find?_eq_none.mp hfind k0 hk0
      simp only [hs, decide_eq_true_eq] at hnone
      omega
    · have hk := List.mem_of_find?_eq_some hfind
      have hkp := List.find?_some hfind
      simp only [hs, decide_eq_true_eq] at hkp
      exact ⟨k, hk, by omega, by simp [dunder_getitem, h2, hfind],
        by simp [dunder_setitem, h2, hfind]⟩
  · intro h3 hex
    obtain ⟨k0, hk0, hk0N⟩ := hex
    rcases hfind : keys.find? (fun k => s3.sm1 < k) with _ | k
    · exfalso
      have hnone := List.find?_eq_none.mp hfind k0 hk0
      simp only [hs3, decide_eq_true_eq] at hnone
      omega
    · have hk := List.mem_of_find?_eq_some hfind
      have hkp := List.find?_some hfind
      simp only [hs3, decide_eq_true_eq] at hkp
      exact ⟨k, hk, by omega, by simp [dunder_getitem3, h3, hfind],
        by simp [dunder_setitem3, h3, hfind]⟩

/-- Witness for C5 at `N = 2` with the out-of-range key list `[5, 0]`,
extracted by applying `C5_validation_errors` at concrete inputs. -/
theorem C5_validation_errors_witness :
    ∃ k, k ∈ [(5 : Int), 0] ∧ ((2 : Nat) : Int) ≤ k ∧
      dunder_getitem (init2d 2 zeros) [5, 0] = Except.error (PyErr.outOfRange k) ∧
      dunder_setitem (init2d 2 zeros) [5, 0] 1 = Except.error (PyErr.outOfRange k) :=
  (C5_validation_errors 2 (init2d 2 zeros) (mk3d 2 [[[0, 0], [0, 0]], [[0, 0]]])
    rfl rfl [5, 0] 1).2.2.1 rfl ⟨5, by simp, by omega⟩

/-- Witness for C9 at `N = 2`, `a = b = -1`. -/
theorem C9_negative_wraparound_witness :
    dunder_getitem (init2d 2 zeros) [-1, -1] = getitem (init2d 2 zeros) (-1) (-1) ∧
    dunder_setitem (init2d 2 zeros) [-1, -1] 9 = setitem (init2d 2 zeros) (-1) (-1) 9 ∧
    getitem (init2d 2 zeros) (-1) (-1) =
      getitem (init2d 2 zeros) ((2 : Int) - 1) ((2 : Int) - 1) ∧
    setitem (init2d 2 zeros) (-1) (-1) 9 =
      setitem (init2d 2 zeros) ((2 : Int) - 1) ((2 : Int) - 1) 9 :=
  C9_negative_wraparound 2 (init2d 2 zeros) (by decide) (by decide) (-1) (-1)
    (by decide) (by decide) (by decide) (by decide) 9

/-! ### Field preservation by the mutating operations -/

lemma setitem_fields {s s2 : SymmetricArray} {i j v : Int}
    (h : setitem s i j v = Except.ok s2) :
    s2.unique = s.unique ∧ s2.shape = s.shape ∧ s2.sm1 = s.sm1 := by
  simp only [setitem] at h
  split at h
  · exact absurd h (by simp)
  split at h
  · exact absurd h (by simp)
  rcases hp : pyIdx s.values.length (min i j) with _ | n <;> rw [hp] at h
  · exact absurd h (by simp)
  simp only [subscript_some, ok_bind] at h
  rcases hq : pySet (s.values.getD n []) (max i j - min i j) v with _ | seg2 <;>
    rw [hq] at h
  · exact absurd h (by simp)
  simp only [subscript_some, ok_bind] at h
  injection h with h
  rw [← h]
  exact ⟨rfl, rfl, rfl⟩

lemma dunder_setitem_fields {s s2 : SymmetricArray} {keys : List Int} {v : Int}
    (h : dunder_setitem s keys v = Except.ok s2) :
    s2.unique = s.unique ∧ s2.shape = s.shape ∧ s2.sm1 = s.sm1 := by
  unfold dunder_setitem at h
  split at h
  · rcases hf : keys.find? (fun k => s.sm1 < k) with _ | k <;> rw [hf] at h
    · exact setitem_fields (by simpa using h)
    · exact absurd h (by simp)
  · exact absurd h (by simp)

lemma foldlM_setitem_fields :
    ∀ (P : List (Nat × Nat)) (a a2 : SymmetricArray) (v : Int),
      P.foldlM (fun s p => dunder_setitem s [(p.1 : Int), (p.2 : Int)] v) a =
          Except.ok a2 →
        a2.unique = a.unique ∧ a2.shape = a.shape ∧ a2.sm1 = a.sm1 := by
  intro P
  induction P with
  | nil =>
    intro a a2 v h
    simp only [List.foldlM_nil] at h
    injection h with h
    rw [h]
    exact ⟨rfl, rfl, rfl⟩
  | cons p P ih =>
    intro a a2 v h
    rw [List.foldlM_cons] at h
    rcases hd : dunder_setitem a [(p.1 : Int), (p.2 : Int)] v with e | a1 <;>
      rw [hd] at h
    · exact absurd h (by simp)
    · simp only [ok_bind] at h
      obtain ⟨u1, u2, u3⟩ := ih a1 a2 v h
      obtain ⟨w1, w2, w3⟩ := dunder_setitem_fields hd
      exact ⟨u1.trans w1, u2.trans w2, u3.trans w3⟩

lemma dunder_iadd_ok {u u2 : SymmetricArray} {r : Option SymmetricArray} {x : Int}
    (h : dunder_iadd u x = Except.ok (u2, r)) :
    r = none ∧ u2.unique = u.unique := by
  unfold dunder_iadd at h
  rcases hf : (offDiagPairs u.shape).foldlM
      (fun s p => dunder_setitem s [(p.1 : Int), (p.2 : Int)] x) u with e | a2 <;>
    rw [hf] at h
  · exact absurd h (by simp)
  · simp only [ok_bind] at h
    injection h with h
    have h1 : a2 = u2 := congrArg Prod.fst h
    have h2 : (none : Option SymmetricArray) = r := congrArg Prod.snd h
    obtain ⟨u1, -, -⟩ := foldlM_setitem_fields _ u a2 x hf
    exact ⟨h2.symm, h1 ▸ u1⟩

lemma setitem3_fields {s s2 : SymmetricArray3d} {i j k v : Int}
    (h : setitem3 s i j k v = Except.ok s2) :
    s2.unique = s.unique ∧ s2.shape = s.shape ∧ s2.sm1 = s.sm1 := by
  simp only [setitem3] at h
  split at h
  · exact absurd h (by simp)
  split at h
  · exact absurd h (by simp)
  split at h
  · exact absurd h (by simp)
  rcases hp : pyIdx s.values.length (min i j) with _ | n <;> rw [hp] at h
  · exact absurd h (by simp)
  simp only [subscript_some, ok_bind] at h
  rcases hq : pyIdx (s.values.getD n []).length (max i j - min i j) with _ | m <;>
    rw [hq] at h
  · exact absurd h (by simp)
  simp only [subscript_some, ok_bind] at h
  rcases hr : pySet ((s.values.getD n []).getD m []) k v with _ | row2 <;>
    rw [hr] at h
  · exact absurd h (by simp)
  simp only [subscript_some, ok_bind] at h
  injection h with h
  rw [← h]
  exact ⟨rfl, rfl, rfl⟩

/-- C7: `length()` returns `N(N+1)/2` for a Symmetric2D and `N(N+1)/2 × N`
for a Symmetric3D, as computed once at construction, and the stored
`uniqueCount` is preserved by every mutating operation (`setitem`,
`setitem3`, `addConstant`); the remaining operations (`get`, `toDense`,
`describe`) are pure functions of the state and return no new state. -/
theorem C7_unique_count (N : Nat) (fl : Nat → List Int)
    (segs : List (List (List Int)))
    (s s2 : SymmetricArray) (i j v : Int)
    (hset : setitem s i j v = Except.ok s2)
    (t t2 : SymmetricArray3d) (i3 j3 k3 w : Int)
    (hset3 : setitem3 t i3 j3 k3 w = Except.ok t2)
    (u u2 : SymmetricArray) (r : Option SymmetricArray) (x : Int)
    (hadd : dunder_iadd u x = Except.ok (u2, r)) :
    pyLen (init2d N fl) = N * (N + 1) / 2 ∧
    pyLen3 (mk3d N segs) = N * (N + 1) / 2 * N ∧
    s2.unique = s.unique ∧ t2.unique = t.unique ∧ u2.unique = u.unique := by
  refine ⟨?_, ?_, (setitem_fields hset).1, (setitem3_fields hset3).1,
    (dunder_iadd_ok hadd).2⟩
  · show (N ^ 2 + N) / 2 = N * (N + 1) / 2
    congr 1
    ring
  · show (N ^ 2 + N) / 2 * N = N * (N + 1) / 2 * N
    congr 2
    ring

/-- Witness for C7 at `N = 2` with concrete writes on both containers. -/
theorem C7_unique_count_witness :
    pyLen (init2d 2 zeros) = 2 * (2 + 1) / 2 ∧
    pyLen3 (mk3d 2 [[[0, 0], [0, 0]], [[0, 0]]]) = 2 * (2 + 1) / 2 * 2 ∧
    (⟨3, 2, [[0, 5], [0]], 1⟩ : SymmetricArray).unique = (init2d 2 zeros).unique ∧
    (⟨6, 2, [[[0, 0], [0, 7]], [[0, 0]]], 1⟩ : SymmetricArray3d).unique =
      (mk3d 2 [[[0, 0], [0, 0]], [[0, 0]]]).unique ∧
    (⟨3, 2, [[0, 5], [0]], 1⟩ : SymmetricArray).unique = (init2d 2 zeros).unique :=
  C7_unique_count 2 zeros [[[0, 0], [0, 0]], [[0, 0]]]
    (init2d 2 zeros) ⟨3, 2, [[0, 5], [0]], 1⟩ 0 1 5 (by rfl)
    (mk3d 2 [[[0, 0], [0, 0]], [[0, 0]]]) ⟨6, 2, [[[0, 0], [0, 7]], [[0, 0]]], 1⟩
    0 1 1 7 (by rfl)
    (init2d 2 zeros) ⟨3, 2, [[0, 5], [0]], 1⟩ none 5 (by rfl)

/-- C10: `__iadd__` runs its mutation loop and then executes a bare
`return`, i.e. returns `None` rather than the container, so Python's
augmented assignment `a += v` rebinds the name `a` to `None` even though
the underlying segments were mutated. -/
theorem C10_iadd_returns_none (a : SymmetricArray) (v : Int)
    (s2 : SymmetricArray) (r : Option SymmetricArray)
    (h : dunder_iadd a v = Except.ok (s2, r)) :
    r = none ∧ pyAugAdd a v = Except.ok none := by
  obtain ⟨h1, -⟩ := dunder_iadd_ok h
  refine ⟨h1, ?_⟩
  unfold pyAugAdd
  rw [h, ok_bind]
  simp [h1]

/-- Witness for C10 on a zero-filled `SymmetricArray(2)` with `v = 5`:
the loop mutates slot `(0, 1)` but the binding becomes `None`. -/
theorem C10_iadd_returns_none_witness :
    (none : Option SymmetricArray) = none ∧
      pyAugAdd (init2d 2 zeros) 5 = Except.ok none :=
  C10_iadd_returns_none (init2d 2 zeros) 5 ⟨3, 2, [[0, 5], [0]], 1⟩ none (by rfl)

/-- C3 evaluation: `__iadd__` as written executes `self[i, j] = value`, so
`addConstant` ASSIGNS the constant to each off-diagonal slot instead of
adding it to the stored value.  Starting from a zero-filled
`SymmetricArray(2)` whose slot `(0, 1)` was set to 3, `addConstant 5`
leaves the slot holding 5, not `3 + 5`; the diagonal slots stay 0. -/
theorem C3_iadd_overwrites :
    ∃ s1 s2 r, dunder_setitem (init2d 2 zeros) [0, 1] 3 = Except.ok s1 ∧
      dunder_iadd s1 5 = Except.ok (s2, r) ∧
      getitem s2 0 1 = Except.ok 5 ∧
      getitem s2 0 0 = Except.ok 0 ∧ getitem s2 1 1 = Except.ok 0 ∧
      getitem s2 0 1 ≠ Except.ok (3 + 5) := by
  refine ⟨⟨3, 2, [[0, 3], [0]], 1⟩, ⟨3, 2, [[0, 5], [0]], 1⟩, none,
    by rfl, by rfl, by rfl, by rfl, by rfl, ?_⟩
  intro hcon
  rw [show getitem (⟨3, 2, [[0, 5], [0]], 1⟩ : SymmetricArray) 0 1 = Except.ok 5
    from rfl] at hcon
  injection hcon with hcon
  omega

/-- C2 evaluation: `SymmetricArray3d.__init__` never constructs an object.
At `N = 10` (the spec's concrete scenario) the fill loop's reference to the
unbound name `fill_func` raises `NameError` on the first iteration; at
`N = 0` the loop is skipped and `self.values[0]` raises `IndexError`.  The
concrete scenario `Symmetric3D(10); set((1,9,2), 5.0); get((9,1,2)) == 5.0;
length() == 550` therefore cannot run. -/
theorem C2_init3d_raises :
    init3d 10 = Except.error (PyErr.nameError "fill_func") ∧
    init3d 0 = Except.error PyErr.listIndex :=
  ⟨rfl, rfl⟩

/-! ### 3-D access at valid nonnegative coordinates -/

lemma values3_get?_of_wf {N : Nat} {s : SymmetricArray3d} (hw : wellFormed3d N s)
    {t : Nat} (ht : t < N) :
    ∃ seg, s.values.get? t = some seg ∧ seg.length = N - t ∧
      ∀ row ∈ seg, row.length = N := by
  obtain ⟨-, -, hlen, hseg⟩ := hw
  have ht' : t < s.values.length := by omega
  obtain ⟨h1, h2⟩ := hseg ⟨t, ht'⟩
  exact ⟨s.values.get ⟨t, ht'⟩, List.get?_eq_get ht', h1, h2⟩

lemma getitem3_resolve {N : Nat} {s : SymmetricArray3d}
    (hsm1 : s.sm1 = (N : Int) - 1) (hvlen : s.values.length = N)
    {i j k : Nat} (hi : i < N) (hj : j < N) (hk : k < N)
    {seg : List (List Int)} (hseg : s.values.get? (min i j) = some seg)
    (hslen : seg.length = N - min i j)
    {row : List Int} (hrow : seg.get? (max i j - min i j) = some row)
    (hrlen : row.length = N) :
    getitem3 s (i : Int) (j : Int) (k : Int) = subscript (row.get? k) := by
  have hmin : min i j < s.values.length := by omega
  have hoff : max i j - min i j < seg.length := by omega
  have hkr : k < row.length := by omega
  simp only [getitem3]
  rw [hsm1, if_neg (by omega), if_neg (by omega), if_neg (by omega),
    cast_max_sub_min, cast_min, pyGet_coe _ hmin, hseg]
  simp only [subscript_some, ok_bind]
  rw [pyGet_coe _ hoff, hrow]
  simp only [subscript_some, ok_bind]
  rw [pyGet_coe _ hkr]

lemma setitem3_resolve {N : Nat} {s : SymmetricArray3d}
    (hsm1 : s.sm1 = (N : Int) - 1) (hvlen : s.values.length = N)
    {i j k : Nat} (hi : i < N) (hj : j < N) (hk : k < N)
    {seg : List (List Int)} (hseg : s.values.get? (min i j) = some seg)
    (hslen : seg.length = N - min i j)
    {row : List Int} (hrow : seg.get? (max i j - min i j) = some row)
    (hrlen : row.length = N) (v : Int) :
    setitem3 s (i : Int) (j : Int) (k : Int) v = Except.ok
      { s with values := (s.values.set (min i j)
          (seg.set (max i j - min i j) (row.set k v))) } := by
  have hmin : min i j < s.values.length := by omega
  have hoff : max i j - min i j < seg.length := by omega
  have hkr : k < row.length := by omega
  have hgetD : s.values.getD (min i j) [] = seg := by
    rw [List.getD_eq_getElem?_getD, ← List.get?_eq_getElem?, hseg]
    rfl
  have hgetD2 : seg.getD (max i j - min i j) [] = row := by
    rw [List.getD_eq_getElem?_getD, ← List.get?_eq_getElem?, hrow]
    rfl
  simp only [setitem3]
  rw [hsm1, if_neg (by omega), if_neg (by omega), if_neg (by omega),
    cast_max_sub_min, cast_min, pyIdx_coe hmin]
  simp only [subscript_some, ok_bind]
  rw [hgetD, pyIdx_coe hoff]
  simp only [subscript_some, ok_bind]
  rw [hgetD2, pySet_coe _ hkr]
  simp only [subscript_some, ok_bind]

/-- C8: on a well-formed Symmetric3D container, after `set((i,j,k), v)`
both `get((i,j,k))` and `get((j,i,k))` return `v`, and reads at the same
pair but any other third coordinate `kp ≠ k` are unchanged. -/
theorem C8_symmetric_3d (N : Nat) (s : SymmetricArray3d) (hw : wellFormed3d N s)
    (i j k : Nat) (hi : i < N) (hj : j < N) (hk : k < N) (v : Int) :
    ∃ s2, setitem3 s (i : Int) (j : Int) (k : Int) v = Except.ok s2 ∧
      getitem3 s2 (i : Int) (j : Int) (k : Int) = Except.ok v ∧
      getitem3 s2 (j : Int) (i : Int) (k : Int) = Except.ok v ∧
      ∀ kp : Nat, kp < N → kp ≠ k →
        getitem3 s2 (i : Int) (j : Int) (kp : Int) =
          getitem3 s (i : Int) (j : Int) (kp : Int) := by
  obtain ⟨seg, hseg, hslen, hrows⟩ := values3_get?_of_wf hw (show min i j < N by omega)
  have hsm1 : s.sm1 = (N : Int) - 1 := hw.2.1
  have hvlen : s.values.length = N := hw.2.2.1
  have hoff : max i j - min i j < seg.length := by omega
  obtain ⟨row, hrow⟩ : ∃ row, seg.get? (max i j - min i j) = some row :=
    ⟨seg.get ⟨max i j - min i j, hoff⟩, List.get?_eq_get hoff⟩
  have hrlen : row.length = N := by
    apply hrows
    obtain ⟨hlt2, hg⟩ := List.get?_eq_some.mp hrow
    rw [← hg]
    exact List.get_mem seg _ hlt2
  have hkr : k < row.length := by omega
  have hset := setitem3_resolve hsm1 hvlen hi hj hk hseg hslen hrow hrlen v
  refine ⟨_, hset, ?_, ?_, ?_⟩
  all_goals {
    have hsm12 : ({ s with values := (s.values.set (min i j)
        (seg.set (max i j - min i j) (row.set k v))) } :
        SymmetricArray3d).sm1 = (N : Int) - 1 := hsm1
    have hvlen2 : ({ s with values := (s.values.set (min i j)
        (seg.set (max i j - min i j) (row.set k v))) } :
        SymmetricArray3d).values.length = N := by
      simpa using hvlen
    have hseg2 : ({ s with values := (s.values.set (min i j)
        (seg.set (max i j - min i j) (row.set k v))) } :
        SymmetricArray3d).values.get? (min i j) =
        some (seg.set (max i j - min i j) (row.set k v)) := by
      simpa using
        List.get?_set_eq_of_lt _ (show min i j < s.values.length by omega)
    have hslen2 : (seg.set (max i j - min i j) (row.set k v)).length =
        N - min i j := by simpa using hslen
    have hrow2 : (seg.set (max i j - min i j) (row.set k v)).get?
        (max i j - min i j) = some (row.set k v) :=
      List.get?_set_eq_of_lt _ (by omega)
    have hrlen2 : (row.set k v).length = N := by simpa using hrlen
    first
    | (rw [getitem3_resolve hsm12 hvlen2 hi hj hk hseg2 hslen2 hrow2 hrlen2,
        List.get?_set_eq_of_lt v hkr, subscript_some])
    | (have hseg2' : ({ s with values := (s.values.set (min i j)
          (seg.set (max i j - min i j) (row.set k v))) } :
          SymmetricArray3d).values.get? (min j i) =
          some (seg.set (max i j - min i j) (row.set k v)) := by
        rw [min_comm j i]; exact hseg2
       have hslen2' : (seg.set (max i j - min i j) (row.set k v)).length =
          N - min j i := by rw [min_comm j i]; exact hslen2
       have hrow2' : (seg.set (max i j - min i j) (row.set k v)).get?
          (max j i - min j i) = some (row.set k v) := by
        rw [min_comm j i, max_comm j i]; exact hrow2
       rw [getitem3_resolve hsm12 hvlen2 hj hi hk hseg2' hslen2' hrow2' hrlen2,
        List.get?_set_eq_of_lt v hkr, subscript_some])
    | (intro kp hkp hkpne
       rw [getitem3_resolve hsm12 hvlen2 hi hj hkp hseg2 hslen2 hrow2 hrlen2,
        getitem3_resolve hsm1 hvlen hi hj hkp hseg hslen hrow hrlen,
        List.get?_set_ne v _ (Ne.symm hkpne)])
  }

/-- Witness for C8 at `N = 2`, `(i, j, k) = (0, 1, 1)`, `v = 7`. -/
theorem C8_symmetric_3d_witness :
    ∃ s2, setitem3 (mk3d 2 [[[0, 0], [0, 0]], [[0, 0]]])
        ((0 : Nat) : Int) ((1 : Nat) : Int) ((1 : Nat) : Int) 7 = Except.ok s2 ∧
      getitem3 s2 ((0 : Nat) : Int) ((1 : Nat) : Int) ((1 : Nat) : Int) =
        Except.ok 7 ∧
      getitem3 s2 ((1 : Nat) : Int) ((0 : Nat) : Int) ((1 : Nat) : Int) =
        Except.ok 7 ∧
      ∀ kp : Nat, kp < 2 → kp ≠ 1 →
        getitem3 s2 ((0 : Nat) : Int) ((1 : Nat) : Int) ((kp : Nat) : Int) =
          getitem3 (mk3d 2 [[[0, 0], [0, 0]], [[0, 0]]])
            ((0 : Nat) : Int) ((1 : Nat) : Int) ((kp : Nat) : Int) :=
  C8_symmetric_3d 2 (mk3d 2 [[[0, 0], [0, 0]], [[0, 0]]]) (by decide)
    0 1 1 (by decide) (by decide) (by decide) 7

/-! ### The densify loop (`full`) -/

lemma mem_offDiagPairs {N : Nat} {p : Nat × Nat} :
    p ∈ offDiagPairs N ↔ p.1 < p.2 ∧ p.2 < N := by
  obtain ⟨a, b⟩ := p
  simp only [offDiagPairs, List.mem_flatMap, List.mem_map, List.mem_range,
    List.mem_range'_1, Prod.mk.injEq]
  constructor
  · rintro ⟨i, hi, j, hj, rfl, rfl⟩
    omega
  · rintro ⟨hab, hbN⟩
    exact ⟨a, by omega, b, ⟨by omega, by omega⟩, rfl, rfl⟩

lemma denseSet_ok {N : Nat} {d : List (List Int)} (hlen : d.length = N)
    (hrow : ∀ r ∈ d, r.length = N) {i j : Nat} (hi : i < N) (hj : j < N) (v : Int) :
    ∃ d2, denseSet d i j v = some d2 ∧ d2.length = N ∧
      (∀ r ∈ d2, r.length = N) ∧
      ∀ a b : Nat, getD2 d2 a b =
        if a = i ∧ b = j then some v else getD2 d a b := by
  have hi' : i < d.length := by omega
  have hrowi : d.get? i = some (d.get ⟨i, hi'⟩) := List.get?_eq_get hi'
  have hrilen : (d.get ⟨i, hi'⟩).length = N := hrow _ (d.get_mem i hi')
  refine ⟨d.set i ((d.get ⟨i, hi'⟩).set j v), ?_, by simpa using hlen, ?_, ?_⟩
  · unfold denseSet
    rw [hrowi, Option.some_bind, if_pos (show j < (d.get ⟨i, hi'⟩).length by omega)]
  · intro r hr
    obtain ⟨n, hn⟩ := List.mem_iff_get?.mp hr
    rcases eq_or_ne n i with rfl | hne
    · rw [List.get?_set_eq_of_lt _ (by omega)] at hn
      injection hn with hn
      rw [← hn]
      simpa using hrilen
    · rw [List.get?_set_ne _ _ (Ne.symm hne)] at hn
      exact hrow r (List.get?_mem hn)
  · intro a b
    unfold getD2
    rcases eq_or_ne a i with rfl | hne
    · rw [List.get?_set_eq_of_lt _ (by omega)]
      rcases eq_or_ne b j with rfl | hbne
      · rw [if_pos ⟨rfl, rfl⟩]
        simp only [Option.some_bind]
        exact List.get?_set_eq_of_lt v (by omega)
      · rw [if_neg (by tauto), hrowi]
        simp only [Option.some_bind]
        exact List.get?_set_ne v _ (Ne.symm hbne)
    · rw [List.get?_set_ne _ _ (Ne.symm hne), if_neg (by tauto)]

lemma getitem_minmax {N : Nat} {s : SymmetricArray} (hw : wellFormed2d N s)
    {i j : Nat} (hi : i < N) (hj : j < N) :
    getitem s ((min i j : Nat) : Int) ((max i j : Nat) : Int) =
      getitem s (i : Int) (j : Int) := by
  have hmle : min i j ≤ max i j := (min_le_left i j).trans (le_max_left i j)
  obtain ⟨seg, hseg, hslen⟩ := values_get?_of_wf hw (show min i j < N by omega)
  obtain ⟨v, hget, hv⟩ := getitem_ok_of_wf hw hi hj hseg
  have hseg' : s.values.get? (min (min i j) (max i j)) = some seg := by
    rw [min_eq_left hmle]
    exact hseg
  obtain ⟨w, hget', hw'⟩ := getitem_ok_of_wf hw (show min i j < N by omega)
    (show max i j < N by omega) hseg'
  rw [hget, hget']
  rw [min_eq_left hmle, max_eq_right hmle] at hw'
  rw [hv] at hw'
  injection hw' with hww
  rw [← hww]

lemma full_fold {N : Nat} {s : SymmetricArray} (hw : wellFormed2d N s) :
    ∀ P : List (Nat × Nat), (∀ p ∈ P, p.1 < p.2 ∧ p.2 < N) →
    ∀ d : List (List Int), d.length = N → (∀ r ∈ d, r.length = N) →
    ∃ R, P.foldlM (fullStep s) d = Except.ok R ∧ R.length = N ∧
      (∀ r ∈ R, r.length = N) ∧
      ∀ a b : Nat, a < N → b < N →
        getD2 R a b =
          if (min a b, max a b) ∈ P ∧ a ≠ b then
            (getitem s ((min a b : Nat) : Int) ((max a b : Nat) : Int)).toOption
          else getD2 d a b := by
  intro P
  induction P with
  | nil =>
    intro _ d h1 h2
    refine ⟨d, by rw [List.foldlM_nil]; rfl, h1, h2, ?_⟩
    intro a b _ _
    rw [if_neg (by simp)]
  | cons p P ih =>
    intro hP d hd1 hd2
    obtain ⟨hp12, hp2N⟩ := hP p (List.mem_cons_self p P)
    have hp1N : p.1 < N := by omega
    obtain ⟨seg, hseg, hslen⟩ :=
      values_get?_of_wf hw (show min p.1 p.2 < N by omega)
    obtain ⟨v, hget, hvs⟩ := getitem_ok_of_wf hw hp1N hp2N hseg
    have hdun : dunder_getitem s [(p.1 : Int), (p.2 : Int)] =
        getitem s (p.1 : Int) (p.2 : Int) :=
      dunder_getitem_valid (wf2_sm1 hw) (by omega) (by omega)
    obtain ⟨d1, hd1', hlen1, hrow1, hcell1⟩ := denseSet_ok hd1 hd2 hp1N hp2N v
    obtain ⟨d2, hd2', hlen2, hrow2, hcell2⟩ := denseSet_ok hlen1 hrow1 hp2N hp1N v
    obtain ⟨R, hfold, hRlen, hRrow, hcells⟩ :=
      ih (fun q hq => hP q (List.mem_cons_of_mem p hq)) d2 hlen2 hrow2
    have hstep : fullStep s d p = Except.ok d2 := by
      unfold fullStep
      rw [hdun, hget]
      simp only [ok_bind]
      rw [hd1']
      simp only [subscript_some, ok_bind]
      rw [hd2']
      simp only [subscript_some]
    refine ⟨R, ?_, hRlen, hRrow, ?_⟩
    · rw [List.foldlM_cons, hstep]
      simp only [ok_bind]
      exact hfold
    · intro a b haN hbN
      rw [hcells a b haN hbN]
      by_cases hmem : (min a b, max a b) ∈ P ∧ a ≠ b
      · rw [if_pos hmem, if_pos ⟨List.mem_cons_of_mem p hmem.1, hmem.2⟩]
      · rw [if_neg hmem, hcell2 a b, hcell1 a b]
        by_cases hab : a = b
        · rw [if_neg (by rintro ⟨h1, h2⟩; omega),
            if_neg (by rintro ⟨h1, h2⟩; omega), if_neg (by tauto)]
        · by_cases hpp : (min a b, max a b) = p
          · have hmin : min a b = p.1 := congrArg Prod.fst hpp
            have hmax : max a b = p.2 := congrArg Prod.snd hpp
            have hmem2 : (min a b, max a b) ∈ p :: P := by
              rw [hpp]
              exact List.mem_cons_self p P
            rcases Nat.lt_or_ge a b with hlt | hge
            · rw [if_neg (by rintro ⟨h1, h2⟩; omega),
                if_pos (⟨by omega, by omega⟩ : a = p.1 ∧ b = p.2),
                if_pos ⟨hmem2, hab⟩, hmin, hmax, hget]
              rfl
            · rw [if_pos (⟨by omega, by omega⟩ : a = p.2 ∧ b = p.1),
                if_pos ⟨hmem2, hab⟩, hmin, hmax, hget]
              rfl
          · have hc2 : ¬(a = p.2 ∧ b = p.1) := by
              rintro ⟨h1, h2⟩
              apply hpp
              rw [h1, h2]
              have e1 : min p.2 p.1 = p.1 := by omega
              have e2 : max p.2 p.1 = p.2 := by omega
              rw [e1, e2]
            have hc1 : ¬(a = p.1 ∧ b = p.2) := by
              rintro ⟨h1, h2⟩
              apply hpp
              rw [h1, h2]
              have e1 : min p.1 p.2 = p.1 := by omega
              have e2 : max p.1 p.2 = p.2 := by omega
              rw [e1, e2]
            have hcr : ¬((min a b, max a b) ∈ p :: P ∧ a ≠ b) := by
              rintro ⟨hm, -⟩
              rcases List.mem_cons.mp hm with h | h
              · exact hpp h
              · exact hmem ⟨h, hab⟩
            rw [if_neg hc2, if_neg hc1, if_neg hcr]

/-- C4: `toDense()` (`full`) returns a fresh `N × N` dense array `D` with
`D[i][j] = D[j][i] = get(i, j)` for every pair `i ≠ j`, while every
diagonal entry keeps the dense array's default zero initialisation — the
copy loop skips `i == j`. -/
theorem C4_full_skips_diagonal (N : Nat) (s : SymmetricArray)
    (hw : wellFormed2d N s) :
    ∃ D, full s = Except.ok D ∧ D.length = N ∧ (∀ r ∈ D, r.length = N) ∧
      (∀ i : Nat, i < N → getD2 D i i = some 0) ∧
      (∀ i j : Nat, i < N → j < N → i ≠ j →
        ∃ v, getitem s (i : Int) (j : Int) = Except.ok v ∧
          getD2 D i j = some v ∧ getD2 D j i = some v) := by
  have hshape : s.shape = N := hw.1
  have hz1 : (denseZeros N).length = N := by simp [denseZeros]
  have hz2 : ∀ r ∈ denseZeros N, r.length = N := by
    intro r hr
    rw [List.eq_of_mem_replicate hr]
    simp
  obtain ⟨R, hfold, hRlen, hRrow, hcells⟩ :=
    full_fold hw (offDiagPairs N) (fun p hp => mem_offDiagPairs.mp hp)
      (denseZeros N) hz1 hz2
  refine ⟨R, ?_, hRlen, hRrow, ?_, ?_⟩
  · unfold full
    rw [hshape]
    exact hfold
  · intro i hi
    rw [hcells i i hi hi, if_neg (by tauto)]
    unfold getD2 denseZeros
    rw [List.get?_eq_getElem?, List.getElem?_replicate, if_pos hi]
    simp only [Option.some_bind]
    rw [List.get?_eq_getElem?, List.getElem?_replicate, if_pos hi]
  · intro i j hi hj hne
    have hmm : min i j < max i j := by omega
    have hmN : max i j < N := by omega
    obtain ⟨seg, hseg, -⟩ := values_get?_of_wf hw (show min i j < N by omega)
    obtain ⟨v, hget, -⟩ := getitem_ok_of_wf hw hi hj hseg
    refine ⟨v, hget, ?_, ?_⟩
    · rw [hcells i j hi hj, if_pos ⟨mem_offDiagPairs.mpr ⟨hmm, hmN⟩, hne⟩,
        getitem_minmax hw hi hj, hget]
      rfl
    · rw [hcells j i hj hi,
        if_pos ⟨by rw [min_comm j i, max_comm j i]
                   exact mem_offDiagPairs.mpr ⟨hmm, hmN⟩, Ne.symm hne⟩,
        min_comm j i, max_comm j i, getitem_minmax hw hi hj, hget]
      rfl

/-- Witness for C4 at `N = 2` on the zero-filled container. -/
theorem C4_full_skips_diagonal_witness :
    ∃ D, full (init2d 2 zeros) = Except.ok D ∧ D.length = 2 ∧
      (∀ r ∈ D, r.length = 2) ∧
      (∀ i : Nat, i < 2 → getD2 D i i = some 0) ∧
      (∀ i j : Nat, i < 2 → j < 2 → i ≠ j →
        ∃ v, getitem (init2d 2 zeros) (i : Int) (j : Int) = Except.ok v ∧
          getD2 D i j = some v ∧ getD2 D j i = some v) :=
  C4_full_skips_diagonal 2 (init2d 2 zeros) (by decide)

end SymSpec
